import Mathlib

/-!
# Verification of the memory store and its semantic retrieval engine

Shallow embedding of `packages/stage-ui/src/stores/memory.ts` and of the
chat-integration composable (`useMemoryIntegration`): the entry data model,
configuration flags, cosine similarity, ranking, importance scoring and the
context formatter.  Numbers are idealised as real numbers (`ℝ`) where the
source computes with IEEE doubles; importance scores use `ℚ` since no
irrational operation is involved.  External effects (clock, random id
generation, the embedding provider, local storage) are passed in explicitly:
`storeMemory` and `searchMemories` receive the outcome of the embedding
request as an `Option (List ℝ)` argument (`none` models every failure path:
provider error, missing generation capability, or an empty data array).
-/

namespace Airi.Memory

open scoped List

/-- Metadata carried by a stored memory entry (`MemoryEntry.metadata`). -/
structure MemoryMetadata where
  timestamp : ℕ
  source : String
  importance : Option ℚ
  tags : Option (List String)

/-- A stored memory entry (`interface MemoryEntry`). -/
structure MemoryEntry where
  id : String
  content : String
  embedding : Option (List ℝ)
  metadata : MemoryMetadata
  sessionId : Option String

/-- Search options (`interface MemorySearchOptions`); `limit` and
`threshold` are optional and default to `5` and `0.7` inside
`searchMemories`. -/
structure MemorySearchOptions where
  query : String
  limit : Option ℕ
  threshold : Option ℝ
  sessionId : Option String

/-- A search result pairing an entry with its similarity
(`interface MemorySearchResult`). -/
structure MemorySearchResult where
  entry : MemoryEntry
  similarity : ℝ

/-- The store's persistent state: the entry collection plus the scalar
configuration values held in local storage. -/
structure MemoryState where
  memories : List MemoryEntry
  memoryEnabled : Bool
  memoryProviderId : String
  memoryEmbedProviderId : String
  memoryModel : String
  memoryEmbedModel : String

/-- The local-storage defaults: empty collection, disabled, empty ids. -/
def initialState : MemoryState :=
  { memories := []
    memoryEnabled := false
    memoryProviderId := ""
    memoryEmbedProviderId := ""
    memoryModel := ""
    memoryEmbedModel := "" }

/-- Derived flag `isConfigured`: enabled AND embed-provider id truthy AND embed-model id
truthy (a JavaScript string is truthy iff non-empty). -/
def isConfigured (s : MemoryState) : Bool :=
  s.memoryEnabled && !(s.memoryEmbedProviderId == "") && !(s.memoryEmbedModel == "")

/-- Source function `cosineSimilarity(a, b)`: length-mismatch guard, one
loop accumulating the dot product and the two squared norms, square roots,
zero-norm guard, then the quotient. -/
noncomputable def cosineSimilarity (a b : List ℝ) : ℝ :=
  if a.length ≠ b.length then 0
  else
    let dotProduct : ℝ := (a.zip b).foldl (fun acc p => acc + p.1 * p.2) 0
    let normA : ℝ := Real.sqrt (a.foldl (fun acc x => acc + x * x) 0)
    let normB : ℝ := Real.sqrt (b.foldl (fun acc x => acc + x * x) 0)
    if normA = 0 ∨ normB = 0 then 0 else dotProduct / (normA * normB)

/-- Spec-side dot product, written as the spec reads: `dot(a,b)`. -/
def dotProductSpec (a b : List ℝ) : ℝ := (List.zipWith (· * ·) a b).sum

/-- Spec-side Euclidean norm of a vector. -/
noncomputable def euclideanNorm (v : List ℝ) : ℝ :=
  Real.sqrt ((v.map (fun x => x ^ 2)).sum)

/-- The optional metadata argument accepted by `storeMemory`. -/
structure StoreMetadata where
  source : Option String
  importance : Option ℚ
  tags : Option (List String)
  sessionId : Option String

/-- The metadata argument with every field omitted (`{}` in the source). -/
def emptyStoreMetadata : StoreMetadata :=
  { source := none, importance := none, tags := none, sessionId := none }

/-- Source function `storeMemory(content, metadata)`.  The clock value (`Date.now()`), the
generated id (`mem_$\x7btime\x7d_$\x7brandom\x7d`) and the embedding
request's outcome are inputs supplied by the environment.  Returns the new
state together with the entry returned to the caller (`none` on the
not-configured early return).  `metadata.source || 'chat'` falls back to
`"chat"` when the source tag is absent or empty (JavaScript truthiness). -/
def storeMemory (s : MemoryState) (content : String) (metadata : StoreMetadata)
    (freshId : String) (now : ℕ) (embedOutcome : Option (List ℝ)) :
    MemoryState × Option MemoryEntry :=
  if !(isConfigured s) then (s, none)
  else
    let entry : MemoryEntry :=
      { id := freshId
        content := content
        embedding :=
          if !(s.memoryEmbedProviderId == "") && !(s.memoryEmbedModel == "") then
            embedOutcome
          else none
        metadata :=
          { timestamp := now
            source :=
              match metadata.source with
              | some src => if src == "" then "chat" else src
              | none => "chat"
            importance := metadata.importance
            tags := metadata.tags }
        sessionId := metadata.sessionId }
    ({ s with memories := s.memories ++ [entry] }, some entry)

/-- The session filter inside `searchMemories`: `if (sessionId)` is taken
only for a truthy (present and non-empty) session id. -/
def sessionFiltered (s : MemoryState) (sessionId : Option String) : List MemoryEntry :=
  match sessionId with
  | some sid =>
    if sid == "" then s.memories
    else s.memories.filter (fun m => m.sessionId == some sid)
  | none => s.memories

/-- The scoring stage of `searchMemories`: keep entries with a non-empty
embedding and pair each with its cosine similarity to the query vector. -/
noncomputable def scoredResults (queryEmbedding : List ℝ) (l : List MemoryEntry) :
    List MemorySearchResult :=
  (l.filter (fun m =>
    match m.embedding with
    | some e => decide (0 < e.length)
    | none => false)).map
    (fun m =>
      { entry := m, similarity := cosineSimilarity queryEmbedding (m.embedding.getD []) })

/-- The threshold stage: `.filter(result => result.similarity >= threshold)`. -/
noncomputable def thresholdKept (threshold : ℝ) (rs : List MemorySearchResult) :
    List MemorySearchResult :=
  rs.filter (fun r => decide (threshold ≤ r.similarity))

/-- The comparator `(a, b) => b.similarity - a.similarity` used with the
(stable, ES2019) `Array.prototype.sort`: `a` may precede `b` exactly when
`b.similarity ≤ a.similarity`. -/
noncomputable def simLE (x y : MemorySearchResult) : Bool :=
  decide (y.similarity ≤ x.similarity)

/-- The sorting stage: a stable sort, descending by similarity. -/
noncomputable def rankSorted (rs : List MemorySearchResult) : List MemorySearchResult :=
  rs.mergeSort simLE

/-- Source function `searchMemories(options)`.  The outcome of the query-embedding request
is an explicit input (`none` models provider failure, a missing generation
capability, or an empty data array; every such path returns `[]`).  The
source performs no state mutation, which the read-only signature mirrors. -/
noncomputable def searchMemories (s : MemoryState) (options : MemorySearchOptions)
    (queryOutcome : Option (List ℝ)) : List MemorySearchResult :=
  if !(isConfigured s) || s.memories.isEmpty then []
  else
    match queryOutcome with
    | none => []
    | some queryEmbedding =>
      (rankSorted
        (thresholdKept (options.threshold.getD 0.7)
          (scoredResults queryEmbedding (sessionFiltered s options.sessionId)))).take
        (options.limit.getD 5)

/-- Source function `getRecentMemories(limit, sessionId?)`: session filter, sort by
timestamp descending (stable), truncate. -/
def getRecentMemories (s : MemoryState) (limit : ℕ) (sessionId : Option String) :
    List MemoryEntry :=
  ((match sessionId with
    | some sid =>
      if sid == "" then s.memories
      else s.memories.filter (fun m => m.sessionId == some sid)
    | none => s.memories).mergeSort
      (fun a b => decide (b.metadata.timestamp ≤ a.metadata.timestamp))).take limit

/-- Source function `deleteMemory(id)`: remove the first entry with a matching id
(`findIndex` + `splice`); no-op when absent. -/
def deleteMemory (s : MemoryState) (id : String) : MemoryState :=
  { s with memories := s.memories.eraseP (fun m => m.id == id) }

/-- Source function `clearMemories(sessionId?)`: `if (sessionId)` keeps only entries whose
session tag differs; an absent argument — or an empty string, which is
falsy — clears the whole collection. -/
def clearMemories (s : MemoryState) (sessionId : Option String) : MemoryState :=
  match sessionId with
  | some sid =>
    if sid == "" then { s with memories := [] }
    else { s with memories := s.memories.filter (fun m => !(m.sessionId == some sid)) }
  | none => { s with memories := [] }

/-- Source function `getMemoryById(id)`: first entry with a matching id, if any. -/
def getMemoryById (s : MemoryState) (id : String) : Option MemoryEntry :=
  s.memories.find? (fun m => m.id == id)

/-- A partial metadata record (`Partial<MemoryEntry['metadata']>`): a
`none` field is an absent key and keeps the stored value. -/
structure MetadataPatch where
  timestamp : Option ℕ
  source : Option String
  importance : Option ℚ
  tags : Option (List String)

/-- The spread merge `{ ...memory.metadata, ...metadata }`. -/
def mergeMetadata (old : MemoryMetadata) (p : MetadataPatch) : MemoryMetadata :=
  { timestamp := p.timestamp.getD old.timestamp
    source := p.source.getD old.source
    importance :=
      match p.importance with
      | some v => some v
      | none => old.importance
    tags :=
      match p.tags with
      | some v => some v
      | none => old.tags }

/-- Replace the metadata of the first entry with a matching id (`find`
returns the first match, which is then mutated in place). -/
def updateFirstMetadata : List MemoryEntry → String → MetadataPatch → List MemoryEntry
  | [], _, _ => []
  | m :: rest, id, p =>
    if m.id == id then { m with metadata := mergeMetadata m.metadata p } :: rest
    else m :: updateFirstMetadata rest id p

/-- Source function `updateMemoryMetadata(id, metadata)`: merge into the first matching
entry's metadata; no-op when the id is absent. -/
def updateMemoryMetadata (s : MemoryState) (id : String) (p : MetadataPatch) :
    MemoryState :=
  { s with memories := updateFirstMetadata s.memories id p }

/-- One mutating store operation, with every environment-supplied value
(fresh id, clock, embedding outcome) carried by the operation itself. -/
inductive MemOp where
  | store (content : String) (metadata : StoreMetadata) (freshId : String)
      (now : ℕ) (embedOutcome : Option (List ℝ))
  | delete (id : String)
  | clear (sessionId : Option String)
  | updateMeta (id : String) (patch : MetadataPatch)

/-- Apply one operation to the store state. -/
def execOp (s : MemoryState) : MemOp → MemoryState
  | MemOp.store c md fid now out => (storeMemory s c md fid now out).1
  | MemOp.delete id => deleteMemory s id
  | MemOp.clear sid => clearMemories s sid
  | MemOp.updateMeta id p => updateMemoryMetadata s id p

/-- Apply a sequence of operations from left to right. -/
def execOps (s : MemoryState) : List MemOp → MemoryState
  | [] => s
  | op :: rest => execOps (execOp s op) rest

/-- The id fields of the collection, in collection order. -/
def memoryIds (s : MemoryState) : List String := s.memories.map MemoryEntry.id

/-- The id generator (`Date.now()` + `Math.random()`) modelled as an
oracle: along the run, every id supplied to a `store` operation is absent
from the collection it is applied to (the spec's "generates a fresh unique
id"). -/
def freshAlong (s : MemoryState) : List MemOp → Bool
  | [] => true
  | op :: rest =>
    (match op with
     | MemOp.store _ _ fid _ _ => !((memoryIds s).contains fid)
     | _ => true) && freshAlong (execOp s op) rest

/-- Source function `calculateImportance` from the chat-integration composable, over the
extracted message text and the message role: base 0.5, one bonus per
criterion, capped at 1.0.  (`text.includes('?')` for the one-character
needle is character containment.) -/
def calculateImportance (text : String) (role : String) : ℚ :=
  let score : ℚ := 0.5
  let score := if text.length > 100 then score + 0.1 else score
  let score := if text.length > 500 then score + 0.1 else score
  let score := if text.data.contains '?' then score + 0.1 else score
  let score := if role == "user" then score + 0.1 else score
  min score 1.0

/-- Modelled from the spec: `Number.prototype.toFixed(2)` — a host
built-in, not repository code — idealised over the reals: the similarity
rendered with exactly two decimal places, rounding to the nearest
hundredth and picking the larger candidate on ties. -/
noncomputable def toFixed2 (x : ℝ) : String :=
  let n : ℤ := ⌊x * 100 + 1 / 2⌋
  (if n < 0 then "-" else "") ++ toString (n.natAbs / 100) ++ "." ++
    (if n.natAbs % 100 < 10 then "0" ++ toString (n.natAbs % 100)
     else toString (n.natAbs % 100))

/-- Source function `formatMemoriesAsContext(memories)`: empty string for an empty input,
otherwise the fixed header, the rendered memories joined by blank lines,
and the fixed footer.  The date rendering (`toLocaleString`, a
locale-dependent host built-in) is a parameter. -/
noncomputable def formatMemoriesAsContext (fmtDate : ℕ → String)
    (memories : List MemorySearchResult) : String :=
  if memories.length = 0 then ""
  else
    let memoryTexts : List String :=
      memories.mapIdx (fun index result =>
        "[Memory " ++ toString (index + 1) ++ "] (" ++
          fmtDate result.entry.metadata.timestamp ++ ", similarity: " ++
          toFixed2 result.similarity ++ ")\n" ++ result.entry.content)
    "\n\n--- Relevant Memories ---\n" ++ String.intercalate "\n\n" memoryTexts ++
      "\n--- End of Memories ---\n\n"

/-! ## Concrete fixtures used by witnesses and counterexamples -/

/-- A 150-character text containing a question mark. -/
def sampleText150 : String := String.mk ('?' :: List.replicate 149 'a')

/-- An entry tagged with session `"a"`. -/
def entryA : MemoryEntry :=
  { id := "mem_a"
    content := "hello"
    embedding := none
    metadata := { timestamp := 0, source := "chat", importance := none, tags := none }
    sessionId := some "a" }

/-- A state holding exactly `entryA`. -/
def cexState : MemoryState :=
  { memories := [entryA]
    memoryEnabled := true
    memoryProviderId := ""
    memoryEmbedProviderId := "p"
    memoryModel := ""
    memoryEmbedModel := "m" }

/-- An entry carrying an embedding. -/
def entryE : MemoryEntry :=
  { id := "mem_e"
    content := "hello world"
    embedding := some [1]
    metadata := { timestamp := 42, source := "chat", importance := none, tags := none }
    sessionId := none }

/-- A configured state holding exactly `entryE`. -/
def configuredState : MemoryState :=
  { memories := [entryE]
    memoryEnabled := true
    memoryProviderId := ""
    memoryEmbedProviderId := "p"
    memoryModel := ""
    memoryEmbedModel := "m" }

/-- A configured state with an empty collection. -/
def emptyConfiguredState : MemoryState :=
  { memories := []
    memoryEnabled := true
    memoryProviderId := ""
    memoryEmbedProviderId := "p"
    memoryModel := ""
    memoryEmbedModel := "m" }

/-- Default search options. -/
def optsW : MemorySearchOptions :=
  { query := "hello", limit := none, threshold := none, sessionId := none }

/-- A concrete operation sequence: two stores, a delete, a re-use of the
deleted id (fresh again), and a metadata update. -/
def opsW : List MemOp :=
  [MemOp.store "first question?" emptyStoreMetadata "mem_1" 1 none,
   MemOp.store "second note" emptyStoreMetadata "mem_2" 2 none,
   MemOp.delete "mem_1",
   MemOp.store "third note" emptyStoreMetadata "mem_1" 3 none,
   MemOp.updateMeta "mem_2" { timestamp := some 9, source := none, importance := none, tags := none }]

/-- A fixed date renderer standing in for `toLocaleString`. -/
def fmtDateW : ℕ → String := fun _ => "1/1/2024, 00:00:00"

/-- A concrete search result. -/
noncomputable def resultW : MemorySearchResult := { entry := entryA, similarity := 1 }

/-! ## Helper lemmas -/

theorem foldl_mul_acc (a b : List ℝ) (c : ℝ) :
    (a.zip b).foldl (fun acc p => acc + p.1 * p.2) c = c + dotProductSpec a b := by
  induction a generalizing b c with
  | nil => simp [dotProductSpec]
  | cons x xs ih =>
    cases b with
    | nil => simp [dotProductSpec]
    | cons y ys =>
      simp only [List.zip_cons_cons, List.foldl_cons, ih, dotProductSpec,
        List.zipWith_cons_cons, List.sum_cons]
      ring

theorem foldl_sq_acc (v : List ℝ) (c : ℝ) :
    v.foldl (fun acc x => acc + x * x) c = c + (v.map (fun x => x ^ 2)).sum := by
  induction v generalizing c with
  | nil => simp
  | cons x xs ih =>
    simp only [List.foldl_cons, ih, List.map_cons, List.sum_cons]
    ring

theorem sqrt_foldl_eq_norm (v : List ℝ) :
    Real.sqrt (v.foldl (fun acc x => acc + x * x) 0) = euclideanNorm v := by
  rw [foldl_sq_acc, zero_add, euclideanNorm]

theorem dotProductSpec_comm (a b : List ℝ) : dotProductSpec a b = dotProductSpec b a := by
  unfold dotProductSpec
  rw [List.zipWith_comm_of_comm _ mul_comm]

/-! ## C2: cosine similarity -/

/-- C2: `cosineSimilarity` returns 0 on mismatched lengths, returns 0 when
either Euclidean norm is exactly zero, and otherwise returns the dot
product divided by the product of the two Euclidean norms. -/
theorem cosineSimilarity_spec :
    (∀ a b : List ℝ, a.length ≠ b.length → cosineSimilarity a b = 0) ∧
    (∀ a b : List ℝ, euclideanNorm a = 0 ∨ euclideanNorm b = 0 →
      cosineSimilarity a b = 0) ∧
    (∀ a b : List ℝ, a.length = b.length → euclideanNorm a ≠ 0 → euclideanNorm b ≠ 0 →
      cosineSimilarity a b = dotProductSpec a b / (euclideanNorm a * euclideanNorm b)) := by
  refine ⟨?_, ?_, ?_⟩
  · intro a b h
    simp only [cosineSimilarity, if_pos h]
  · intro a b h
    by_cases hl : a.length ≠ b.length
    · simp only [cosineSimilarity, if_pos hl]
    · simp only [cosineSimilarity, if_neg hl, sqrt_foldl_eq_norm]
      rw [if_pos h]
  · intro a b hl ha hb
    have hl' : ¬a.length ≠ b.length := by simp [hl]
    simp only [cosineSimilarity, if_neg hl', sqrt_foldl_eq_norm]
    rw [if_neg (by tauto), foldl_mul_acc, zero_add]

/-- Witness for C2: each clause discharged at a concrete input. -/
theorem cosineSimilarity_spec_witness :
    (([(1 : ℝ)].length ≠ ([] : List ℝ).length) ∧ cosineSimilarity [(1 : ℝ)] [] = 0) ∧
    ((euclideanNorm [(0 : ℝ)] = 0 ∨ euclideanNorm [(3 : ℝ)] = 0) ∧
      cosineSimilarity [(0 : ℝ)] [(3 : ℝ)] = 0) ∧
    (([(1 : ℝ)].length = [(1 : ℝ)].length) ∧ euclideanNorm [(1 : ℝ)] ≠ 0 ∧
      cosineSimilarity [(1 : ℝ)] [(1 : ℝ)] =
        dotProductSpec [(1 : ℝ)] [(1 : ℝ)] /
          (euclideanNorm [(1 : ℝ)] * euclideanNorm [(1 : ℝ)])) := by
  have h0 : euclideanNorm [(0 : ℝ)] = 0 := by simp [euclideanNorm]
  have h1 : euclideanNorm [(1 : ℝ)] ≠ 0 := by norm_num [euclideanNorm]
  exact ⟨⟨by simp, cosineSimilarity_spec.1 _ _ (by simp)⟩,
    ⟨Or.inl h0, cosineSimilarity_spec.2.1 _ _ (Or.inl h0)⟩,
    ⟨rfl, h1, cosineSimilarity_spec.2.2 _ _ rfl h1 h1⟩⟩

/-! ## C8: symmetry of cosine similarity -/

/-- C8: for equal-length vectors, `cosineSimilarity a b = cosineSimilarity b a`. -/
theorem cosineSimilarity_comm (a b : List ℝ) (h : a.length = b.length) :
    cosineSimilarity a b = cosineSimilarity b a := by
  have hd : (a.zip b).foldl (fun acc p => acc + p.1 * p.2) 0 =
      (b.zip a).foldl (fun acc p => acc + p.1 * p.2) 0 := by
    rw [foldl_mul_acc, foldl_mul_acc, dotProductSpec_comm]
  simp only [cosineSimilarity, h, ne_eq, not_true_eq_false, if_false, ite_false,
    if_neg (fun hc : ¬b.length = b.length => hc rfl)]
  rw [hd]
  split_ifs with h1 h2 h2
  · rfl
  · exact absurd h1.symm h2
  · exact absurd h2.symm h1
  · rw [mul_comm]

/-- Witness for C8 at a concrete pair of equal-length vectors. -/
theorem cosineSimilarity_comm_witness :
    ([(1 : ℝ), 2].length = [(0 : ℝ), 5].length) ∧
      cosineSimilarity [(1 : ℝ), 2] [(0 : ℝ), 5] =
        cosineSimilarity [(0 : ℝ), 5] [(1 : ℝ), 2] :=
  ⟨rfl, cosineSimilarity_comm [1, 2] [0, 5] rfl⟩

/-! ## C5: importance score -/

/-- C5: the importance score is 0.5 plus 0.1 per criterion (length &gt; 100,
length &gt; 500, a question mark, role "user"), clamped at 1.0; a short
assistant message scores 0.5, a 150-character user message containing "?"
scores 0.8, and no input scores above 1.0. -/
theorem calculateImportance_spec :
    (∀ text role : String,
      calculateImportance text role =
        min (0.5 + (if text.length > 100 then (0.1 : ℚ) else 0) +
          (if text.length > 500 then (0.1 : ℚ) else 0) +
          (if text.data.contains '?' then (0.1 : ℚ) else 0) +
          (if role == "user" then (0.1 : ℚ) else 0)) 1.0) ∧
    calculateImportance "short" "assistant" = 0.5 ∧
    (∀ text : String, text.length = 150 → text.data.contains '?' = true →
      calculateImportance text "user" = 0.8) ∧
    (∀ text role : String, calculateImportance text role ≤ 1.0) := by
  refine ⟨?_, ?_, ?_, ?_⟩
  · intro text role
    simp only [calculateImportance]
    split_ifs <;> norm_num
  · have h1 : ¬("short".length > 100) := by decide
    have h2 : ¬("short".length > 500) := by decide
    have h3 : "short".data.contains '?' = false := by decide
    have h4 : ("assistant" == "user") = false := by decide
    simp only [calculateImportance, h3, h4, if_neg h1, if_neg h2, Bool.false_eq_true,
      if_false]
    norm_num
  · intro text h1 h2
    simp only [calculateImportance, h1, h2]
    norm_num
  · intro text role
    exact min_le_right _ _

set_option maxRecDepth 4000 in
/-- Witness for C5: the 150-character clause at a concrete text. -/
theorem calculateImportance_spec_witness :
    sampleText150.length = 150 ∧ sampleText150.data.contains '?' = true ∧
      calculateImportance sampleText150 "user" = 0.8 :=
  ⟨by decide, by decide, calculateImportance_spec.2.2.1 sampleText150 (by decide) (by decide)⟩

/-! ## C3: unconfigured store is inert -/

/-- C3: when the store is not configured, `storeMemory` returns no entry
and leaves the state unchanged, and `searchMemories` returns the empty
sequence (the model's read-only signature mirrors that the source never
mutates state there); `searchMemories` also returns empty whenever the
collection is empty. -/
theorem notConfigured_noop :
    (∀ (s : MemoryState) (c : String) (md : StoreMetadata) (fid : String) (now : ℕ)
      (out : Option (List ℝ)), isConfigured s = false →
        storeMemory s c md fid now out = (s, none)) ∧
    (∀ (s : MemoryState) (opts : MemorySearchOptions) (qOut : Option (List ℝ)),
      isConfigured s = false ∨ s.memories = [] → searchMemories s opts qOut = []) := by
  constructor
  · intro s c md fid now out h
    simp [storeMemory, h]
  · intro s opts qOut h
    rcases h with h | h <;> simp [searchMemories, h]

/-- Witness for C3 at the local-storage default (disabled) state. -/
theorem notConfigured_noop_witness :
    isConfigured initialState = false ∧
    storeMemory initialState "hello" emptyStoreMetadata "mem_1" 0 none =
      (initialState, none) ∧
    searchMemories initialState optsW none = [] :=
  ⟨rfl, notConfigured_noop.1 _ _ _ _ _ _ rfl, notConfigured_noop.2 _ _ _ (Or.inl rfl)⟩

/-! ## C4: failed embedding degrades gracefully -/

/-- C4: with the store configured and the embedding request failing (or
yielding no vector), `storeMemory` still appends one new entry — given
content, supplied fresh id and timestamp, absent embedding — and returns
it, while `searchMemories` returns the empty sequence. -/
theorem embedFailure_degrade :
    (∀ (s : MemoryState) (c : String) (md : StoreMetadata) (fid : String) (now : ℕ),
      isConfigured s = true →
        ∃ e : MemoryEntry,
          storeMemory s c md fid now none =
            ({ s with memories := s.memories ++ [e] }, some e) ∧
          e.embedding = none ∧ e.content = c ∧ e.id = fid ∧
          e.metadata.timestamp = now) ∧
    (∀ (s : MemoryState) (opts : MemorySearchOptions),
      searchMemories s opts none = []) := by
  constructor
  · intro s c md fid now h
    refine ⟨{ id := fid
              content := c
              embedding := none
              metadata :=
                { timestamp := now
                  source :=
                    match md.source with
                    | some src => if src == "" then "chat" else src
                    | none => "chat"
                  importance := md.importance
                  tags := md.tags }
              sessionId := md.sessionId }, ?_, rfl, rfl, rfl, rfl⟩
    simp [storeMemory, h]
  · intro s opts
    by_cases hc : (!(isConfigured s) || s.memories.isEmpty : Bool) <;>
      simp [searchMemories, hc]

/-- Witness for C4 at a concrete configured state. -/
theorem embedFailure_degrade_witness :
    isConfigured configuredState = true ∧
    (∃ e : MemoryEntry,
      storeMemory configuredState "hi there" emptyStoreMetadata "mem_2" 7 none =
        ({ configuredState with memories := configuredState.memories ++ [e] }, some e) ∧
      e.embedding = none ∧ e.content = "hi there" ∧ e.id = "mem_2" ∧
      e.metadata.timestamp = 7) ∧
    searchMemories configuredState optsW none = [] :=
  ⟨rfl, embedFailure_degrade.1 _ _ _ _ _ rfl, embedFailure_degrade.2 _ _⟩

/-! ## C6: clearing a session -/

/-- Counterexample to C6 as stated: with the collection holding one entry
tagged with session `"a"`, calling `clearMemories` with the (given)
session id `""` removes that entry even though its tag differs from
`""` — the claim's "removes exactly the entries whose session tag equals
that sessionId" fails at this input. -/
theorem clearMemories_empty_sid_cex :
    cexState.memories.map (fun m => m.sessionId) = [some "a"] ∧
    (clearMemories cexState (some "")).memories = [] :=
  ⟨rfl, rfl⟩

/-- C6 (amended): for every **non-empty** sessionId, `clearMemories`
removes exactly the entries with that session tag and leaves every other
entry unchanged, in order; with no argument it empties the collection. -/
theorem clearMemories_session_spec :
    (∀ (s : MemoryState) (sid : String), sid ≠ "" →
      (clearMemories s (some sid)).memories =
        s.memories.filter (fun m => !(m.sessionId == some sid))) ∧
    (∀ s : MemoryState, (clearMemories s none).memories = []) := by
  constructor
  · intro s sid h
    simp [clearMemories, h]
  · intro s
    rfl

/-- Witness for the amended C6 at a concrete non-empty session id. -/
theorem clearMemories_session_spec_witness :
    ("a" : String) ≠ "" ∧
    (clearMemories cexState (some "a")).memories =
      cexState.memories.filter (fun m => !(m.sessionId == some "a")) ∧
    (clearMemories cexState none).memories = [] :=
  ⟨by decide, clearMemories_session_spec.1 _ _ (by decide),
    clearMemories_session_spec.2 _⟩

/-! ## C10: the empty-string session id clears everything -/

/-- C10: `clearMemories` with the empty string removes every entry — the
empty string is falsy and is treated exactly like an absent sessionId. -/
theorem clearMemories_emptyString_clears (s : MemoryState) :
    (clearMemories s (some "")).memories = [] ∧
    clearMemories s (some "") = clearMemories s none :=
  ⟨rfl, rfl⟩

/-! ## C7: ids stay pairwise distinct -/

theorem updateFirstMetadata_map_id (l : List MemoryEntry) (id : String)
    (p : MetadataPatch) :
    (updateFirstMetadata l id p).map MemoryEntry.id = l.map MemoryEntry.id := by
  induction l with
  | nil => rfl
  | cons m rest ih =>
    by_cases h : (m.id == id) = true <;> simp [updateFirstMetadata, h, ih]

theorem freshAlong_nodup (ops : List MemOp) (s : MemoryState)
    (hs : (memoryIds s).Nodup) (hf : freshAlong s ops = true) :
    (memoryIds (execOps s ops)).Nodup := by
  induction ops generalizing s with
  | nil => exact hs
  | cons op rest ih =>
    cases op with
    | store c md fid now out =>
      simp only [freshAlong, Bool.and_eq_true] at hf
      refine ih (execOp s (MemOp.store c md fid now out)) ?_ hf.2
      have hmem : fid ∉ memoryIds s := by
        have hop := hf.1
        simp only [Bool.not_eq_true', List.contains, List.elem_eq_mem,
          decide_eq_false_iff_not] at hop
        exact hop
      by_cases hcfg : isConfigured s = true
      · simp only [execOp, storeMemory, hcfg, Bool.not_true, Bool.false_eq_true,
          if_false, memoryIds, List.map_append, List.map_cons, List.map_nil]
        refine List.Nodup.append hs (List.nodup_singleton fid) ?_
        intro a ha hb
        rw [List.mem_singleton] at hb
        subst hb
        exact hmem ha
      · have hcfg' : isConfigured s = false := by
          revert hcfg
          cases isConfigured s <;> simp
        simp only [execOp, storeMemory, hcfg', Bool.not_false, if_true]
        exact hs
    | delete id =>
      simp only [freshAlong, Bool.true_and] at hf
      refine ih _ ?_ hf
      exact List.Nodup.sublist
        (List.Sublist.map MemoryEntry.id (List.eraseP_sublist _)) hs
    | clear sid =>
      simp only [freshAlong, Bool.true_and] at hf
      refine ih _ ?_ hf
      cases sid with
      | none => simp [execOp, clearMemories, memoryIds]
      | some x =>
        by_cases hx : (x == "") = true
        · simp [execOp, clearMemories, hx, memoryIds]
        · simp only [execOp, clearMemories, hx, Bool.false_eq_true, if_false]
          exact List.Nodup.sublist
            (List.Sublist.map MemoryEntry.id (List.filter_sublist _)) hs
    | updateMeta id p =>
      simp only [freshAlong, Bool.true_and] at hf
      refine ih _ ?_ hf
      simpa only [memoryIds, execOp, updateMemoryMetadata,
        updateFirstMetadata_map_id] using hs

/-- C7: after any sequence of `storeMemory` / `deleteMemory` /
`clearMemories` / `updateMemoryMetadata` operations starting from an empty
collection, the entry ids are pairwise distinct.  The id generator
(`Date.now()` + `Math.random()`) is an environment oracle, constrained by
`freshAlong` to supply ids not currently in the collection — the spec's
"generates a fresh unique id". -/
theorem execOps_ids_nodup (s : MemoryState) (ops : List MemOp)
    (h0 : s.memories = []) (hf : freshAlong s ops = true) :
    (memoryIds (execOps s ops)).Nodup :=
  freshAlong_nodup ops s (by simp [memoryIds, h0]) hf

/-- Witness for C7: a concrete run with two stores, a delete, a re-used
(freed) id and a metadata update. -/
theorem execOps_ids_nodup_witness :
    emptyConfiguredState.memories = [] ∧
    freshAlong emptyConfiguredState opsW = true ∧
    (memoryIds (execOps emptyConfiguredState opsW)).Nodup :=
  ⟨rfl, by decide, execOps_ids_nodup emptyConfiguredState opsW rfl (by decide)⟩

/-! ## C9: formatting retrieved memories as context -/

/-- C9: `formatMemoriesAsContext` returns the empty string on an empty
input; on a non-empty input it returns the fixed header, the blocks joined
by blank lines, and the fixed footer, the i-th block rendering the i-th
result with its 1-based index, its rendered timestamp, its similarity to
two decimal places, and its entry's content. -/
theorem formatMemories_spec (fmtDate : ℕ → String) (rs : List MemorySearchResult) :
    formatMemoriesAsContext fmtDate [] = "" ∧
    (rs ≠ [] →
      ∃ blocks : List String,
        formatMemoriesAsContext fmtDate rs =
          "\n\n--- Relevant Memories ---\n" ++ String.intercalate "\n\n" blocks ++
            "\n--- End of Memories ---\n\n" ∧
        blocks.length = rs.length ∧
        ∀ (i : ℕ) (h : i < rs.length) (h' : i < blocks.length),
          blocks.get ⟨i, h'⟩ =
            "[Memory " ++ toString (i + 1) ++ "] (" ++
              fmtDate (rs.get ⟨i, h⟩).entry.metadata.timestamp ++ ", similarity: " ++
              toFixed2 (rs.get ⟨i, h⟩).similarity ++ ")\n" ++
              (rs.get ⟨i, h⟩).entry.content) := by
  constructor
  · rfl
  · intro hne
    refine ⟨rs.mapIdx (fun index result =>
      "[Memory " ++ toString (index + 1) ++ "] (" ++
        fmtDate result.entry.metadata.timestamp ++ ", similarity: " ++
        toFixed2 result.similarity ++ ")\n" ++ result.entry.content), ?_, ?_, ?_⟩
    · have hlen : rs.length ≠ 0 := fun h => hne (List.length_eq_zero.mp h)
      simp only [formatMemoriesAsContext, hlen, if_false]
    · simp
    · intro i h h'
      rw [List.get_mapIdx rs _ i h]

/-- Witness for C9 at a concrete non-empty result list. -/
theorem formatMemories_spec_witness :
    ([resultW] ≠ ([] : List MemorySearchResult)) ∧
    (∃ blocks : List String,
      formatMemoriesAsContext fmtDateW [resultW] =
        "\n\n--- Relevant Memories ---\n" ++ String.intercalate "\n\n" blocks ++
          "\n--- End of Memories ---\n\n" ∧
      blocks.length = [resultW].length ∧
      ∀ (i : ℕ) (h : i < [resultW].length) (h' : i < blocks.length),
        blocks.get ⟨i, h'⟩ =
          "[Memory " ++ toString (i + 1) ++ "] (" ++
            fmtDateW ([resultW].get ⟨i, h⟩).entry.metadata.timestamp ++
            ", similarity: " ++ toFixed2 ([resultW].get ⟨i, h⟩).similarity ++ ")\n" ++
            ([resultW].get ⟨i, h⟩).entry.content) :=
  ⟨by simp, (formatMemories_spec fmtDateW [resultW]).2 (by simp)⟩

/-! ## C1: the ranking contract of searchMemories -/

theorem simLE_trans : ∀ a b c : MemorySearchResult, simLE a b → simLE b c → simLE a c := by
  intro a b c hab hbc
  simp only [simLE, decide_eq_true_eq] at *
  exact le_trans hbc hab

theorem simLE_total : ∀ a b : MemorySearchResult, simLE a b || simLE b a := by
  intro a b
  simp only [simLE, Bool.or_eq_true, decide_eq_true_eq]
  exact le_total b.similarity a.similarity

theorem searchMemories_cases (s : MemoryState) (opts : MemorySearchOptions)
    (q : List ℝ) :
    searchMemories s opts (some q) = [] ∨
    searchMemories s opts (some q) =
      (rankSorted (thresholdKept (opts.threshold.getD 0.7)
        (scoredResults q (sessionFiltered s opts.sessionId)))).take
        (opts.limit.getD 5) := by
  by_cases hc : (!(isConfigured s) || s.memories.isEmpty) = true
  · exact Or.inl (by simp [searchMemories, hc])
  · exact Or.inr (by simp [searchMemories, hc])

/-- C1: `searchMemories` returns only results whose similarity is at least
the threshold, at most `limit` of them, sorted non-increasing by
similarity; results of exactly equal similarity keep the relative order of
the (threshold-passing) candidates they came from, which is the original
entry order; and on the non-trivial path the output is exactly the stable
descending sort of the kept candidates truncated to `limit`. -/
theorem searchMemories_rank_spec (s : MemoryState) (opts : MemorySearchOptions)
    (q : List ℝ) :
    (∀ r ∈ searchMemories s opts (some q), opts.threshold.getD 0.7 ≤ r.similarity) ∧
    (searchMemories s opts (some q)).length ≤ opts.limit.getD 5 ∧
    (searchMemories s opts (some q)).Pairwise
      (fun x y => y.similarity ≤ x.similarity) ∧
    (∀ a b : MemorySearchResult, a.similarity = b.similarity →
      [a, b] <+ thresholdKept (opts.threshold.getD 0.7)
        (scoredResults q (sessionFiltered s opts.sessionId)) →
      [a, b] <+ rankSorted (thresholdKept (opts.threshold.getD 0.7)
        (scoredResults q (sessionFiltered s opts.sessionId)))) ∧
    (isConfigured s = true → s.memories ≠ [] →
      searchMemories s opts (some q) =
        (rankSorted (thresholdKept (opts.threshold.getD 0.7)
          (scoredResults q (sessionFiltered s opts.sessionId)))).take
          (opts.limit.getD 5)) := by
  refine ⟨?_, ?_, ?_, ?_, ?_⟩
  · intro r hr
    rcases searchMemories_cases s opts q with hc | hc
    · rw [hc] at hr
      exact absurd hr (List.not_mem_nil r)
    · rw [hc] at hr
      have hmem : r ∈ rankSorted (thresholdKept (opts.threshold.getD 0.7)
          (scoredResults q (sessionFiltered s opts.sessionId))) :=
        (List.take_sublist _ _).subset hr
      have hkept : r ∈ thresholdKept (opts.threshold.getD 0.7)
          (scoredResults q (sessionFiltered s opts.sessionId)) := by
        rw [rankSorted] at hmem
        exact List.mem_mergeSort.mp hmem
      have := (List.mem_filter.mp hkept).2
      exact of_decide_eq_true this
  · rcases searchMemories_cases s opts q with hc | hc
    · simp [hc]
    · rw [hc, List.length_take]
      exact min_le_left _ _
  · rcases searchMemories_cases s opts q with hc | hc
    · simp [hc]
    · rw [hc]
      have hsorted := List.sorted_mergeSort simLE_trans simLE_total
        (thresholdKept (opts.threshold.getD 0.7)
          (scoredResults q (sessionFiltered s opts.sessionId)))
      have htake : (rankSorted (thresholdKept (opts.threshold.getD 0.7)
          (scoredResults q (sessionFiltered s opts.sessionId)))).take
            (opts.limit.getD 5) <+
          rankSorted (thresholdKept (opts.threshold.getD 0.7)
            (scoredResults q (sessionFiltered s opts.sessionId))) :=
        List.take_sublist _ _
      refine List.Pairwise.imp ?_ (List.Pairwise.sublist htake (by rw [rankSorted]; exact hsorted))
      intro x y hxy
      simpa [simLE] using hxy
  · intro a b hsim hsub
    rw [rankSorted]
    refine List.pair_sublist_mergeSort simLE_trans simLE_total ?_ hsub
    simp [simLE, hsim]
  · intro h1 h2
    have hc : (!(isConfigured s) || s.memories.isEmpty) = false := by
      simp [h1, h2]
    simp [searchMemories, hc]

/-- Witness for C1 at a concrete configured state with one embedded entry. -/
theorem searchMemories_rank_spec_witness :
    isConfigured configuredState = true ∧ configuredState.memories ≠ [] ∧
    searchMemories configuredState optsW (some [1]) =
      (rankSorted (thresholdKept (optsW.threshold.getD 0.7)
        (scoredResults [1] (sessionFiltered configuredState optsW.sessionId)))).take
        (optsW.limit.getD 5) :=
  ⟨rfl, by simp [configuredState],
    (searchMemories_rank_spec configuredState optsW [1]).2.2.2.2 rfl
      (by simp [configuredState])⟩

end Airi.Memory
